import Mathlib

/-!
Verification of `src/excel_splitter.py` (SplitXL).

The worker function `split_excel_file_with_formatting` and its helpers
`_copy_cell_properties`, `_copy_row_formatting` and `_copy_merged_cells`
are embedded shallowly below.  Worksheets are modelled as records of the
fields the code reads and writes; opaque scalar attributes (font, border,
fill, protection, alignment objects, column widths, row heights) are
modelled as integers, cell values as optional strings.  External effects
are passed in as parameters: the outcome of `openpyxl.load_workbook` as an
`Except`, the outcome of `wb_chunk.save(path)` as a function from the path
to an optional exception message, and the cancellation flag as a function
from the chunk index (the flag's value when it is polled at the start of
that chunk's loop iteration).  Messages sent through `progress_queue` are
accumulated in an event list.
-/

/-- Chunk count, from `num_chunks = (data_rows_to_process + chunk_size - 1) // chunk_size`
    (line 220).  `chunk_size ≥ 1` is enforced by the input dialog. -/
def num_chunks (data_rows_to_process chunk_size : Nat) : Nat :=
  (data_rows_to_process + chunk_size - 1) / chunk_size

/-- First source row of chunk `i`'s data window, from
    `source_data_start_row = heading_rows + (i * chunk_size) + 1` (line 228). -/
def source_data_start_row (heading_rows chunk_size i : Nat) : Nat :=
  heading_rows + i * chunk_size + 1

/-- Last source row of chunk `i`'s data window, from
    `source_data_end_row = min(heading_rows + ((i + 1) * chunk_size), total_rows)` (line 229). -/
def source_data_end_row (heading_rows chunk_size total_rows i : Nat) : Nat :=
  min (heading_rows + (i + 1) * chunk_size) total_rows

/-- A merged cell range (`openpyxl` `CellRange`): row and column bounds. -/
structure MergedRange where
  min_row : Nat
  max_row : Nat
  min_col : Nat
  max_col : Nat
deriving DecidableEq, Repr

/-- One worksheet cell as `_copy_cell_properties` sees it.  The style
    attributes (`font`, `border`, `fill`, `protection`, `alignment`) and the
    hyperlink and comment objects are opaque; they are coded as integers. -/
structure CellData where
  value : Option String
  has_style : Bool
  font : Int
  border : Int
  fill : Int
  number_format : String
  protection : Int
  alignment : Int
  hyperlink : Option Int
  comment : Option Int
deriving DecidableEq, Repr

/-- A fresh cell of a new workbook: empty value, default style. -/
def defaultCell : CellData :=
  { value := none, has_style := false, font := 0, border := 0, fill := 0,
    number_format := "General", protection := 0, alignment := 0,
    hyperlink := none, comment := none }

instance : Inhabited CellData := ⟨defaultCell⟩

/-- A worksheet, with the fields the splitter reads and writes.  Column
    widths are keyed by column index (`get_column_letter` is a bijection from
    indices to letters, so the letter keys of `column_dimensions` are modelled
    by their indices); a column or row absent from the dimensions dictionary
    maps to `none`. -/
structure Sheet where
  title : String
  max_row : Nat
  max_col : Nat
  cells : Nat → Nat → CellData
  merged : List MergedRange
  column_widths : Nat → Option Int
  row_heights : Nat → Option Int
  auto_filter : Option String

/-- The single sheet of a fresh `openpyxl.Workbook()`. -/
def emptySheet : Sheet :=
  { title := "Sheet", max_row := 0, max_col := 0,
    cells := fun _ _ => defaultCell, merged := [],
    column_widths := fun _ => none, row_heights := fun _ => none,
    auto_filter := none }

/-- `ws.cell(row=r, column=c)` followed by assignments to that cell:
    store `cell` at `(r, c)`. -/
def setCell (ws : Sheet) (r c : Nat) (cell : CellData) : Sheet :=
  { ws with
    cells := fun r2 c2 => if r2 = r ∧ c2 = c then cell else ws.cells r2 c2,
    max_row := max ws.max_row r, max_col := max ws.max_col c }

/-- `_copy_cell_properties(source_cell, target_cell)` (lines 120-139), as a
    pure function on cell records: copy the value unconditionally; if
    `source_cell.has_style`, copy font, border, fill, number format,
    protection and alignment (the `copy(...)` calls produce fresh objects
    with equal contents, so on this value-level model they are the
    attributes themselves); copy the hyperlink and the comment when present
    (`if source_cell.hyperlink:` / `if source_cell.comment:`). -/
def copyCellProperties (source_cell target_cell : CellData) : CellData :=
  let t := { target_cell with value := source_cell.value }
  let t := if source_cell.has_style then
      { t with
        has_style := true, font := source_cell.font,
        border := source_cell.border, fill := source_cell.fill,
        number_format := source_cell.number_format,
        protection := source_cell.protection,
        alignment := source_cell.alignment }
    else t
  let t := if source_cell.hyperlink.isSome then
      { t with hyperlink := source_cell.hyperlink } else t
  if source_cell.comment.isSome then
    { t with comment := source_cell.comment } else t

/-- `_copy_row_formatting(ws_source, ws_target, source_row_idx, target_row_idx, max_col)`
    (lines 141-159): copy every cell in columns `1..max_col`, then copy the
    row height when the source row has an entry in `row_dimensions`. -/
def copyRowFormatting (ws_source ws_target : Sheet)
    (source_row_idx target_row_idx max_col : Nat) : Sheet :=
  let ws_target := (List.range max_col).foldl (fun tgt k =>
      let col_idx := k + 1
      setCell tgt target_row_idx col_idx
        (copyCellProperties (ws_source.cells source_row_idx col_idx)
          (tgt.cells target_row_idx col_idx))) ws_target
  if (ws_source.row_heights source_row_idx).isSome then
    { ws_target with row_heights := fun r =>
        if r = target_row_idx then ws_source.row_heights source_row_idx
        else ws_target.row_heights r }
  else ws_target

/-- `_copy_merged_cells(ws_source, ws_target, min_row, max_row)` (lines
    161-177): for every source merged range fully contained in
    `[min_row, max_row]`, call `ws_target.merge_cells(str(merged_range))`.
    `str(merged_range)` renders the range's own coordinates, so the merge is
    created at the source coordinates, unshifted.  The `try/except` only
    logs a warning on failure; a successful merge appends the range. -/
def copyMergedCells (ws_source ws_target : Sheet) (min_row max_row : Nat) : Sheet :=
  ws_source.merged.foldl (fun tgt merged_range =>
    if merged_range.min_row ≥ min_row ∧ merged_range.max_row ≤ max_row then
      { tgt with merged := tgt.merged ++ [merged_range] }
    else tgt) ws_target

/-- The terminal `result` dictionary. -/
structure SplitResult where
  status : String
  message : String
  files_created : Nat
deriving DecidableEq, Repr

/-- A message put on `progress_queue`: either a progress update or the
    terminal result. -/
inductive Event where
  | progress (step : Nat) (status : String)
  | result (data : SplitResult)
deriving DecidableEq, Repr

/-- Worker state: the loaded source sheet (present once loading succeeded),
    the queue contents, the files saved to disk (path and contents), and the
    local `files_created` counter. -/
structure EngineState where
  source : Option Sheet
  events : List Event
  saved : List (String × Sheet)
  files_created : Nat

/-- `progress_queue.put({'type': 'result', 'data': result})`. -/
def putResult (st : EngineState) (r : SplitResult) : EngineState :=
  { st with events := st.events ++ [Event.result r] }

/-- Parameters of `split_excel_file_with_formatting`, with the external
    world's responses.  `input_filename_base` stands for
    `os.path.splitext(os.path.basename(input_file))[0]` (line 193).
    `load` is the outcome of `openpyxl.load_workbook` (line 198),
    `save path` is the outcome of `wb_chunk.save(path)` (`none` = success,
    `some e` = the exception message), and `cancel i` is the value
    `cancel_event.is_set()` returns when polled before chunk `i`
    (0-indexed). -/
structure Params where
  input_filename_base : String
  output_directory : String
  chunk_size : Nat
  heading_rows : Nat
  preserve_formulas : Bool
  load : Except String Sheet
  save : String → Option String
  cancel : Nat → Bool

/-- The status text of the progress event for chunk `i` (line 231). -/
def chunk_status_text (i nc s_row e_row : Nat) : String :=
  "Processing chunk " ++ toString (i + 1) ++ "/" ++ toString nc ++
    " (Rows " ++ toString s_row ++ "-" ++ toString e_row ++ ")"

/-- `output_file_name` (line 259). -/
def output_file_name (base : String) (s_row e_row : Nat) : String :=
  base ++ "_rows_" ++ toString s_row ++ "-" ++ toString e_row ++ ".xlsx"

/-- `output_path = os.path.join(output_directory, output_file_name)` (line 260). -/
def output_path (dir base : String) (s_row e_row : Nat) : String :=
  dir ++ "/" ++ output_file_name base s_row e_row

/-- Building one chunk workbook (lines 234-257): fresh workbook, title,
    auto-filter reference copied when the source has one, column widths for
    columns present in `column_dimensions`, header rows `1..heading_rows`
    copied to target rows `1..heading_rows` followed by the header-window
    merges, then data rows `[s_row, e_row]` copied to the next target rows
    (`current_target_row` continues at `heading_rows + 1`) followed by the
    data-window merges. -/
def buildChunk (ws_source : Sheet) (heading_rows max_col s_row e_row : Nat) : Sheet :=
  let ws_chunk := { emptySheet with title := ws_source.title }
  let ws_chunk := match ws_source.auto_filter with
    | some ref => { ws_chunk with auto_filter := some ref }
    | none => ws_chunk
  let ws_chunk := (List.range max_col).foldl (fun tgt k =>
      let col_idx := k + 1
      if (ws_source.column_widths col_idx).isSome then
        { tgt with column_widths := fun c =>
            if c = col_idx then ws_source.column_widths col_idx
            else tgt.column_widths c }
      else tgt) ws_chunk
  let ws_chunk := if heading_rows > 0 then
      let t := (List.range heading_rows).foldl (fun tgt k =>
        copyRowFormatting ws_source tgt (k + 1) (k + 1) max_col) ws_chunk
      copyMergedCells ws_source t 1 heading_rows
    else ws_chunk
  let ws_chunk := (List.range (e_row + 1 - s_row)).foldl (fun tgt k =>
      copyRowFormatting ws_source tgt (s_row + k) (heading_rows + 1 + k) max_col) ws_chunk
  copyMergedCells ws_source ws_chunk s_row e_row

/-- The per-chunk loop `for i in range(num_chunks)` (lines 222-267), with
    the remaining iteration count as the recursion fuel (`runLoaded` starts
    it with `fuel = nc`, `i = 0`).  Each iteration polls the cancellation
    flag, emits the progress event, builds the chunk, and saves it; a set
    flag or a failed save emits the terminal result and returns.  The
    `0` case is the code after the loop (line 269): the success result. -/
def chunkLoop (p : Params) (ws_source : Sheet) (total_rows max_col heading_rows nc : Nat) :
    Nat → Nat → EngineState → EngineState
  | 0, _, st =>
      putResult st
        { status := "success",
          message := "Successfully created " ++ toString st.files_created ++ " files.",
          files_created := st.files_created }
  | fuel + 1, i, st =>
      if p.cancel i then
        putResult st
          { status := "cancelled", message := "Operation cancelled.",
            files_created := st.files_created }
      else
        let s_row := source_data_start_row heading_rows p.chunk_size i
        let e_row := source_data_end_row heading_rows p.chunk_size total_rows i
        let st1 := { st with events := st.events ++
          [Event.progress (i + 1) (chunk_status_text i nc s_row e_row)] }
        let ws_chunk := buildChunk ws_source heading_rows max_col s_row e_row
        let path := output_path p.output_directory p.input_filename_base s_row e_row
        match p.save path with
        | some e =>
            putResult st1
              { status := "error", message := "Error saving " ++ path ++ ": " ++ e,
                files_created := st1.files_created }
        | none =>
            chunkLoop p ws_source total_rows max_col heading_rows nc fuel (i + 1)
              { st1 with
                saved := st1.saved ++ [(path, ws_chunk)],
                files_created := st1.files_created + 1 }

/-- Lines 205-270, after a successful load: read `total_rows`/`max_col`,
    handle the empty sheet, clamp `heading_rows` (`max(0, ...)` is the
    identity on `Nat`), handle `data_rows_to_process <= 0`
    (in `Nat`, `= 0` after the clamp), otherwise run the chunk loop. -/
def runLoaded (p : Params) (ws_source : Sheet) : EngineState :=
  let total_rows := ws_source.max_row
  let max_col := ws_source.max_col
  let st0 : EngineState :=
    { source := some ws_source, events := [], saved := [], files_created := 0 }
  if total_rows = 0 ∨ max_col = 0 then
    putResult st0
      { status := "success", message := "Input file's active sheet was empty.",
        files_created := 0 }
  else
    let heading_rows := min p.heading_rows total_rows
    let data_rows_to_process := total_rows - heading_rows
    if data_rows_to_process = 0 then
      putResult st0
        { status := "success", message := "All rows were headers. One file created.",
          files_created := 1 }
    else
      let nc := num_chunks data_rows_to_process p.chunk_size
      chunkLoop p ws_source total_rows max_col heading_rows nc nc 0 st0

/-- `split_excel_file_with_formatting` (lines 179-270): attempt the load;
    on failure emit the error result with zero files created and return. -/
def split_excel_file_with_formatting (p : Params) : EngineState :=
  match p.load with
  | Except.error e =>
      { source := none,
        events := [Event.result
          { status := "error", message := "Error loading Excel file: " ++ e,
            files_created := 0 }],
        saved := [], files_created := 0 }
  | Except.ok ws_source => runLoaded p ws_source

/-!
Object-level model of `_copy_cell_properties` for the deep-copy claim.
The `copy(...)` calls produce fresh objects; to speak about aliasing, cells
here hold references into an explicit object store, and `copy` is an
allocation of a fresh reference holding the same contents.
-/

/-- An object store: contents of each allocated object, and the next fresh
    reference.  Object contents are opaque scalars. -/
structure Store where
  objs : Nat → Int
  nextId : Nat

/-- `copy(obj)`: allocate a fresh object with the same contents. -/
def allocCopy (s : Store) (r : Nat) : Nat × Store :=
  (s.nextId,
   { objs := fun n => if n = s.nextId then s.objs r else s.objs n,
     nextId := s.nextId + 1 })

/-- Mutating the object behind reference `r` in place. -/
def writeObj (s : Store) (r : Nat) (v : Int) : Store :=
  { s with objs := fun n => if n = r then v else s.objs n }

/-- A cell holding references to its style, hyperlink and comment objects
    (the attributes `copy(...)` is applied to in lines 130-139); the number
    format is a plain string assigned directly (line 133). -/
structure CellRef where
  value : Option String
  has_style : Bool
  font : Nat
  border : Nat
  fill : Nat
  number_format : String
  protection : Nat
  alignment : Nat
  hyperlink : Option Nat
  comment : Option Nat
deriving DecidableEq, Repr

/-- All references of a cell are live in the store. -/
def CellRef.wf (c : CellRef) (s : Store) : Prop :=
  c.font < s.nextId ∧ c.border < s.nextId ∧ c.fill < s.nextId ∧
  c.protection < s.nextId ∧ c.alignment < s.nextId ∧
  (∀ r, c.hyperlink = some r → r < s.nextId) ∧
  (∀ r, c.comment = some r → r < s.nextId)

/-- `_copy_cell_properties` (lines 120-139) on the object store: the value
    is assigned directly; each `copy(...)` allocates a fresh object with the
    source object's contents and the target field is pointed at it;
    `number_format` is assigned directly; hyperlink and comment are copied
    only when present. -/
def copyCellPropertiesRef (s : Store) (source_cell target_cell : CellRef) :
    Store × CellRef :=
  let t := { target_cell with value := source_cell.value }
  let (s, t) := if source_cell.has_style then
      let (fontId, s) := allocCopy s source_cell.font
      let (borderId, s) := allocCopy s source_cell.border
      let (fillId, s) := allocCopy s source_cell.fill
      let (protectionId, s) := allocCopy s source_cell.protection
      let (alignmentId, s) := allocCopy s source_cell.alignment
      (s, { t with
            has_style := true, font := fontId, border := borderId,
            fill := fillId, number_format := source_cell.number_format,
            protection := protectionId, alignment := alignmentId })
    else (s, t)
  let (s, t) := match source_cell.hyperlink with
    | some r =>
        let (hid, s) := allocCopy s r
        (s, { t with hyperlink := some hid })
    | none => (s, t)
  match source_cell.comment with
  | some r =>
      let (cid, s) := allocCopy s r
      (s, { t with comment := some cid })
  | none => (s, t)

/-!
Cache-based copy strategy.  The source file at hand contains only the
standard strategy (`_copy_cell_properties`); the optimized strategy and the
`copy_method` selector the specification describes are not present in
`src/`.  The standard strategy is embedded from the source; the optimized
one is modelled from the specification, and the two are compared.
-/

/-- A cell together with its style identity: the style bundle is reachable
    from the sheet's style table through the cell's `styleId`, and identity
    (the `styleId`), not the bundle's contents, is the cache key. -/
structure StyledCell where
  value : Option String
  has_style : Bool
  styleId : Nat
  hyperlink : Option Int
  comment : Option Int
deriving DecidableEq, Repr

/-- The visible outcome of copying one cell: the value, the materialized
    style bundle (when the source had a non-default style), the hyperlink
    and the comment. -/
structure OutCell where
  value : Option String
  style : Option Int
  hyperlink : Option Int
  comment : Option Int
deriving DecidableEq, Repr

/-- Standard strategy, per `_copy_cell_properties`: materialize the style
    bundle `styleOf c.styleId` directly whenever the source has a style. -/
def copyCellStd (styleOf : Nat → Int) (c : StyledCell) : OutCell :=
  { value := c.value,
    style := if c.has_style then some (styleOf c.styleId) else none,
    hyperlink := c.hyperlink, comment := c.comment }

/-- Association-list lookup for the style cache. -/
def lookupStyle : List (Nat × Int) → Nat → Option Int
  | [], _ => none
  | (k, v) :: rest, key => if k = key then some v else lookupStyle rest key

/-- Modelled from the spec: the optimized copy strategy and the per-chunk
    Style Cache are absent from `src/excel_splitter.py`; per section 4.2 of
    the specification, before snapshotting the style the optimized variant
    looks the source style identity up in the cache, on a hit assigns the
    cached bundle, and on a miss materializes the bundle and inserts it
    keyed by the source identity. -/
def copyCellOpt (styleOf : Nat → Int) (cache : List (Nat × Int))
    (c : StyledCell) : OutCell × List (Nat × Int) :=
  if c.has_style then
    match lookupStyle cache c.styleId with
    | some st =>
        ({ value := c.value, style := some st,
           hyperlink := c.hyperlink, comment := c.comment }, cache)
    | none =>
        let st := styleOf c.styleId
        ({ value := c.value, style := some st,
           hyperlink := c.hyperlink, comment := c.comment },
         (c.styleId, st) :: cache)
  else
    ({ value := c.value, style := none,
       hyperlink := c.hyperlink, comment := c.comment }, cache)

/-- Standard strategy over the cells of one chunk. -/
def copyCellsStd (styleOf : Nat → Int) (cells : List StyledCell) : List OutCell :=
  cells.map (copyCellStd styleOf)

/-- Optimized strategy over the cells of one chunk, threading the cache
    (cleared at the start of the chunk, so the engine starts it at `[]`). -/
def copyCellsOpt (styleOf : Nat → Int) (cache : List (Nat × Int)) :
    List StyledCell → List OutCell × List (Nat × Int)
  | [] => ([], cache)
  | c :: rest =>
      let (out, cache) := copyCellOpt styleOf cache c
      let (outs, cache) := copyCellsOpt styleOf cache rest
      (out :: outs, cache)

/-- Claim C7: if loading the source workbook fails, the engine emits exactly
    one terminal result with status `error` carrying the load exception
    message and `files_created = 0`, and enters no further states: no chunk
    is built and no output file is created. -/
theorem c7_load_error_terminal (p : Params) (e : String)
    (h : p.load = Except.error e) :
    split_excel_file_with_formatting p =
      { source := none,
        events := [Event.result
          { status := "error", message := "Error loading Excel file: " ++ e,
            files_created := 0 }],
        saved := [], files_created := 0 } := by
  unfold split_excel_file_with_formatting
  rw [h]

def c7Params : Params :=
  { input_filename_base := "report", output_directory := "out",
    chunk_size := 10, heading_rows := 1, preserve_formulas := false,
    load := Except.error "No such file or directory", save := fun _ => none,
    cancel := fun _ => false }

theorem c7_load_error_terminal_witness :
    c7Params.load = Except.error "No such file or directory" ∧
    split_excel_file_with_formatting c7Params =
      { source := none,
        events := [Event.result
          { status := "error",
            message := "Error loading Excel file: " ++ "No such file or directory",
            files_created := 0 }],
        saved := [], files_created := 0 } :=
  ⟨rfl, c7_load_error_terminal c7Params "No such file or directory" rfl⟩

/-- Claim C10: if the loaded sheet has zero columns (`max_col = 0`), the
    engine emits a success result with `files_created = 0` and attempts no
    chunks, even when `total_rows > 0` - the same early-exit path taken for
    a sheet with zero total rows. -/
theorem c10_zero_columns_early_exit (p : Params) (ws : Sheet)
    (hload : p.load = Except.ok ws) (hcol : ws.max_col = 0)
    (hrow : 0 < ws.max_row) :
    (split_excel_file_with_formatting p).events =
      [Event.result
        { status := "success", message := "Input file's active sheet was empty.",
          files_created := 0 }] ∧
    (split_excel_file_with_formatting p).saved = [] ∧
    (split_excel_file_with_formatting p).files_created = 0 := by
  have h1 : split_excel_file_with_formatting p = runLoaded p ws := by
    unfold split_excel_file_with_formatting
    rw [hload]
  rw [h1]
  simp [runLoaded, hcol, putResult]

def c10Sheet : Sheet :=
  { emptySheet with max_row := 7, max_col := 0 }

def c10Params : Params :=
  { input_filename_base := "report", output_directory := "out",
    chunk_size := 10, heading_rows := 1, preserve_formulas := false,
    load := Except.ok c10Sheet, save := fun _ => none,
    cancel := fun _ => false }

theorem c10_zero_columns_early_exit_witness :
    c10Params.load = Except.ok c10Sheet ∧ c10Sheet.max_col = 0 ∧
      0 < c10Sheet.max_row ∧
    ((split_excel_file_with_formatting c10Params).events =
      [Event.result
        { status := "success", message := "Input file's active sheet was empty.",
          files_created := 0 }] ∧
    (split_excel_file_with_formatting c10Params).saved = [] ∧
    (split_excel_file_with_formatting c10Params).files_created = 0) :=
  ⟨rfl, rfl, by decide,
   c10_zero_columns_early_exit c10Params c10Sheet rfl rfl (by decide)⟩

def c3Sheet : Sheet :=
  { emptySheet with max_row := 5, max_col := 1 }

def c3Params : Params :=
  { input_filename_base := "report", output_directory := "out",
    chunk_size := 10, heading_rows := 5, preserve_formulas := false,
    load := Except.ok c3Sheet, save := fun _ => none,
    cancel := fun _ => false }

/-- Claim C3, evaluated on the code: with `total_rows = 5`,
    `header_rows = 5` (zero data rows after clamping) the run emits a
    success result whose `files_created` field is `1` while the set of
    output files actually written to disk is empty - the reported count and
    the files on disk disagree, and no header-only file is created. -/
theorem c3_header_only_reports_one_saves_none :
    (split_excel_file_with_formatting c3Params).events =
      [Event.result
        { status := "success", message := "All rows were headers. One file created.",
          files_created := 1 }] ∧
    (split_excel_file_with_formatting c3Params).saved = [] := by
  exact ⟨rfl, rfl⟩

def c2Sheet : Sheet :=
  { emptySheet with
    max_row := 23, max_col := 1,
    merged := [{ min_row := 12, max_row := 13, min_col := 1, max_col := 1 }] }

/-- Claim C2, evaluated on the code: with `total_rows = 23`,
    `header_rows = 1`, `chunk_size = 10`, the second chunk (`i = 1`) has the
    data window `[12, 21]` and the claimed `row_offset = 10`; the source
    merged range spanning rows 12-13 is fully contained in the window, yet
    the built chunk carries the merge at the unshifted source rows 12-13 and
    not at the re-anchored rows 2-3 the claim requires. -/
theorem c2_merge_created_unshifted :
    (buildChunk c2Sheet 1 1 (source_data_start_row 1 10 1)
        (source_data_end_row 1 10 23 1)).merged =
      [{ min_row := 12, max_row := 13, min_col := 1, max_col := 1 }] ∧
    ({ min_row := 2, max_row := 3, min_col := 1, max_col := 1 } : MergedRange) ∉
      (buildChunk c2Sheet 1 1 (source_data_start_row 1 10 1)
        (source_data_end_row 1 10 23 1)).merged := by
  decide

/-- Every cached bundle is the one the sheet's style table yields for its
    key: the Style Cache invariant. -/
def CacheSound (styleOf : Nat → Int) (cache : List (Nat × Int)) : Prop :=
  ∀ k v, lookupStyle cache k = some v → v = styleOf k

lemma cacheSound_nil (styleOf : Nat → Int) : CacheSound styleOf [] := by
  intro k v h
  simp [lookupStyle] at h

lemma cacheSound_cons (styleOf : Nat → Int) (cache : List (Nat × Int)) (k : Nat)
    (hc : CacheSound styleOf cache) :
    CacheSound styleOf ((k, styleOf k) :: cache) := by
  intro k2 v h
  simp only [lookupStyle] at h
  by_cases hk : k = k2
  · subst hk
    simp at h
    omega
  · rw [if_neg hk] at h
    exact hc k2 v h

lemma copyCellsOpt_sound (styleOf : Nat → Int) (cells : List StyledCell) :
    ∀ cache, CacheSound styleOf cache →
      (copyCellsOpt styleOf cache cells).1 = copyCellsStd styleOf cells ∧
      CacheSound styleOf (copyCellsOpt styleOf cache cells).2 := by
  induction cells with
  | nil =>
      intro cache hc
      exact ⟨rfl, hc⟩
  | cons c rest ih =>
      intro cache hc
      simp only [copyCellsOpt, copyCellOpt, copyCellsStd, List.map, copyCellStd]
      by_cases hs : c.has_style
      · simp only [hs, if_true]
        cases hl : lookupStyle cache c.styleId with
        | some st =>
            have hst : st = styleOf c.styleId := hc c.styleId st hl
            subst hst
            obtain ⟨h1, h2⟩ := ih cache hc
            simp only [copyCellsStd] at h1
            exact ⟨by simp [h1, hs], h2⟩
        | none =>
            have hc2 : CacheSound styleOf ((c.styleId, styleOf c.styleId) :: cache) :=
              cacheSound_cons styleOf cache c.styleId hc
            obtain ⟨h1, h2⟩ := ih ((c.styleId, styleOf c.styleId) :: cache) hc2
            simp only [copyCellsStd] at h1
            exact ⟨by simp [h1, hs], h2⟩
      · simp only [hs, if_false]
        obtain ⟨h1, h2⟩ := ih cache hc
        simp only [copyCellsStd] at h1
        exact ⟨by simp [h1, hs], h2⟩

/-- Claim C4: for every input, the optimized copy strategy (per-chunk Style
    Cache, modelled from the spec since it is absent from `src/`) and the
    standard copy strategy embedded from `_copy_cell_properties` produce
    identical visible output - the same values, materialized style bundles,
    hyperlinks and comments for every cell of a chunk; the cache, cleared
    per chunk, starts empty.  (Merged ranges are produced by
    `_copy_merged_cells` independently of the cell-copy strategy.) -/
theorem c4_optimized_equals_standard (styleOf : Nat → Int) (cells : List StyledCell) :
    (copyCellsOpt styleOf [] cells).1 = copyCellsStd styleOf cells :=
  (copyCellsOpt_sound styleOf cells [] (cacheSound_nil styleOf)).1


lemma allocCopy_nextId (s : Store) (r : Nat) :
    (allocCopy s r).2.nextId = s.nextId + 1 := rfl

lemma allocCopy_objs_new (s : Store) (r : Nat) :
    (allocCopy s r).2.objs s.nextId = s.objs r := by
  simp [allocCopy]

lemma allocCopy_objs_old (s : Store) (r m : Nat) (h : m ≠ s.nextId) :
    (allocCopy s r).2.objs m = s.objs m := by
  simp [allocCopy, h]

lemma writeObj_objs_ne (s : Store) (r : Nat) (v : Int) (m : Nat) (h : m ≠ r) :
    (writeObj s r v).objs m = s.objs m := by
  simp [writeObj, h]

/-- A sequence of `copy(...)` allocations: fold `allocCopy` over a list of
    source references, left to right. -/
def allocSeq (s : Store) : List Nat → Store
  | [] => s
  | r :: rs => allocSeq (allocCopy s r).2 rs

lemma allocSeq_nextId (rs : List Nat) :
    ∀ s, (allocSeq s rs).nextId = s.nextId + rs.length := by
  induction rs with
  | nil =>
      intro s
      rfl
  | cons r rs ih =>
      intro s
      simp only [allocSeq]
      rw [ih, allocCopy_nextId, List.length_cons]
      omega

lemma allocSeq_objs_old (rs : List Nat) :
    ∀ s m, m < s.nextId → (allocSeq s rs).objs m = s.objs m := by
  induction rs with
  | nil =>
      intro s m _
      rfl
  | cons r rs ih =>
      intro s m h
      simp only [allocSeq]
      rw [ih _ m (by rw [allocCopy_nextId]; omega)]
      exact allocCopy_objs_old s r m (by omega)

/-- The `j`-th freshly allocated object of an allocation sequence out of
    live references holds the contents of the `j`-th copied object. -/
lemma allocSeq_objs_get (rs : List Nat) :
    ∀ (s : Store), (∀ x ∈ rs, x < s.nextId) → ∀ j (hj : j < rs.length),
      (allocSeq s rs).objs (s.nextId + j) = s.objs (rs.get ⟨j, hj⟩) := by
  induction rs with
  | nil =>
      intro s _ j hj
      simp at hj
  | cons r rs ih =>
      intro s hmem j hj
      simp only [allocSeq]
      cases j with
      | zero =>
          rw [Nat.add_zero]
          rw [allocSeq_objs_old rs _ _ (by rw [allocCopy_nextId]; omega)]
          rw [allocCopy_objs_new]
          rfl
      | succ k =>
          have hk : k < rs.length := by
            simp only [List.length_cons] at hj
            omega
          have e : s.nextId + (k + 1) = (allocCopy s r).2.nextId + k := by
            rw [allocCopy_nextId]
            omega
          rw [e]
          have hmem2 : ∀ x ∈ rs, x < (allocCopy s r).2.nextId := by
            intro x hx
            rw [allocCopy_nextId]
            exact Nat.lt_succ_of_lt (hmem x (List.mem_cons_of_mem r hx))
          rw [ih _ hmem2 k hk]
          have hget : rs.get ⟨k, hk⟩ < s.nextId :=
            hmem _ (List.mem_cons_of_mem r (List.get_mem rs k hk))
          exact allocCopy_objs_old s r _ (by omega)

lemma allocSeq_objs_get0 (rs : List Nat) (s : Store)
    (hmem : ∀ x ∈ rs, x < s.nextId) (h0 : 0 < rs.length) :
    (allocSeq s rs).objs s.nextId = s.objs (rs.get ⟨0, h0⟩) := by
  have g := allocSeq_objs_get rs s hmem 0 h0
  rwa [Nat.add_zero] at g

/-- `_copy_cell_properties` on a styled source cell with a hyperlink and a
    comment: seven fresh objects, in the order of the `copy(...)` calls of
    lines 130-139. -/
lemma copyRef_eq_ttt (s : Store) (src tgt : CellRef) (hr cr : Nat)
    (hst : src.has_style = true) (hhl : src.hyperlink = some hr)
    (hcm : src.comment = some cr) :
    copyCellPropertiesRef s src tgt =
      (allocSeq s [src.font, src.border, src.fill, src.protection,
        src.alignment, hr, cr],
       { tgt with
         value := src.value, has_style := true,
         font := s.nextId, border := s.nextId + 1, fill := s.nextId + 2,
         number_format := src.number_format,
         protection := s.nextId + 3, alignment := s.nextId + 4,
         hyperlink := some (s.nextId + 5), comment := some (s.nextId + 6) }) := by
  simp only [copyCellPropertiesRef, hst, hhl, hcm, if_true]
  rfl

/-- Styled source cell with a hyperlink and no comment: six fresh objects. -/
lemma copyRef_eq_ttn (s : Store) (src tgt : CellRef) (hr : Nat)
    (hst : src.has_style = true) (hhl : src.hyperlink = some hr)
    (hcm : src.comment = none) :
    copyCellPropertiesRef s src tgt =
      (allocSeq s [src.font, src.border, src.fill, src.protection,
        src.alignment, hr],
       { tgt with
         value := src.value, has_style := true,
         font := s.nextId, border := s.nextId + 1, fill := s.nextId + 2,
         number_format := src.number_format,
         protection := s.nextId + 3, alignment := s.nextId + 4,
         hyperlink := some (s.nextId + 5) }) := by
  simp only [copyCellPropertiesRef, hst, hhl, hcm, if_true]
  rfl

/-- Styled source cell with a comment and no hyperlink: six fresh objects. -/
lemma copyRef_eq_tnt (s : Store) (src tgt : CellRef) (cr : Nat)
    (hst : src.has_style = true) (hhl : src.hyperlink = none)
    (hcm : src.comment = some cr) :
    copyCellPropertiesRef s src tgt =
      (allocSeq s [src.font, src.border, src.fill, src.protection,
        src.alignment, cr],
       { tgt with
         value := src.value, has_style := true,
         font := s.nextId, border := s.nextId + 1, fill := s.nextId + 2,
         number_format := src.number_format,
         protection := s.nextId + 3, alignment := s.nextId + 4,
         comment := some (s.nextId + 5) }) := by
  simp only [copyCellPropertiesRef, hst, hhl, hcm, if_true]
  rfl

/-- Styled source cell with neither hyperlink nor comment: five fresh
    objects. -/
lemma copyRef_eq_tnn (s : Store) (src tgt : CellRef)
    (hst : src.has_style = true) (hhl : src.hyperlink = none)
    (hcm : src.comment = none) :
    copyCellPropertiesRef s src tgt =
      (allocSeq s [src.font, src.border, src.fill, src.protection,
        src.alignment],
       { tgt with
         value := src.value, has_style := true,
         font := s.nextId, border := s.nextId + 1, fill := s.nextId + 2,
         number_format := src.number_format,
         protection := s.nextId + 3, alignment := s.nextId + 4 }) := by
  simp only [copyCellPropertiesRef, hst, hhl, hcm, if_true]
  rfl

/-- Unstyled source cell with a hyperlink and a comment: only the value is
    assigned and the two decorations are copied. -/
lemma copyRef_eq_ftt (s : Store) (src tgt : CellRef) (hr cr : Nat)
    (hst : src.has_style = false) (hhl : src.hyperlink = some hr)
    (hcm : src.comment = some cr) :
    copyCellPropertiesRef s src tgt =
      (allocSeq s [hr, cr],
       { tgt with
         value := src.value,
         hyperlink := some s.nextId, comment := some (s.nextId + 1) }) := by
  simp only [copyCellPropertiesRef, hst, hhl, hcm, Bool.false_eq_true, if_false]
  rfl

/-- Unstyled source cell with only a hyperlink. -/
lemma copyRef_eq_ftn (s : Store) (src tgt : CellRef) (hr : Nat)
    (hst : src.has_style = false) (hhl : src.hyperlink = some hr)
    (hcm : src.comment = none) :
    copyCellPropertiesRef s src tgt =
      (allocSeq s [hr],
       { tgt with value := src.value, hyperlink := some s.nextId }) := by
  simp only [copyCellPropertiesRef, hst, hhl, hcm, Bool.false_eq_true, if_false]
  rfl

/-- Unstyled source cell with only a comment. -/
lemma copyRef_eq_fnt (s : Store) (src tgt : CellRef) (cr : Nat)
    (hst : src.has_style = false) (hhl : src.hyperlink = none)
    (hcm : src.comment = some cr) :
    copyCellPropertiesRef s src tgt =
      (allocSeq s [cr],
       { tgt with value := src.value, comment := some s.nextId }) := by
  simp only [copyCellPropertiesRef, hst, hhl, hcm, Bool.false_eq_true, if_false]
  rfl

/-- Undecorated source cell: only the value is assigned. -/
lemma copyRef_eq_fnn (s : Store) (src tgt : CellRef)
    (hst : src.has_style = false) (hhl : src.hyperlink = none)
    (hcm : src.comment = none) :
    copyCellPropertiesRef s src tgt =
      (s, { tgt with value := src.value }) := by
  simp only [copyCellPropertiesRef, hst, hhl, hcm, Bool.false_eq_true, if_false]

/-- In every combination of decorations, the target's value is the
    source's: line 128 runs unconditionally. -/
lemma copyRef_value (s : Store) (src tgt : CellRef) :
    (copyCellPropertiesRef s src tgt).2.value = src.value := by
  cases hst : src.has_style <;> cases hhl : src.hyperlink <;>
    cases hcm : src.comment <;>
      simp [copyCellPropertiesRef, hst, hhl, hcm]

/-- Contents of the first five allocations of an allocation sequence. -/
lemma allocSeq_style_facts (s : Store) (a b c d e : Nat) (rest : List Nat)
    (hmem : ∀ x ∈ a :: b :: c :: d :: e :: rest, x < s.nextId) :
    (allocSeq s (a :: b :: c :: d :: e :: rest)).objs s.nextId = s.objs a ∧
    (allocSeq s (a :: b :: c :: d :: e :: rest)).objs (s.nextId + 1) = s.objs b ∧
    (allocSeq s (a :: b :: c :: d :: e :: rest)).objs (s.nextId + 2) = s.objs c ∧
    (allocSeq s (a :: b :: c :: d :: e :: rest)).objs (s.nextId + 3) = s.objs d ∧
    (allocSeq s (a :: b :: c :: d :: e :: rest)).objs (s.nextId + 4) = s.objs e := by
  refine ⟨allocSeq_objs_get0 _ s hmem (by simp),
    allocSeq_objs_get _ s hmem 1 (by simp),
    allocSeq_objs_get _ s hmem 2 (by simp),
    allocSeq_objs_get _ s hmem 3 (by simp),
    allocSeq_objs_get _ s hmem 4 (by simp)⟩

/-- With a non-default style the six style attributes are copied: the five
    copied objects hold the source objects' contents, the number format is
    assigned directly, and writing to any pre-existing object leaves the
    target's five style objects unchanged. -/
lemma copyRef_style (s : Store) (src tgt : CellRef) (hwf : src.wf s)
    (hst : src.has_style = true) :
    (copyCellPropertiesRef s src tgt).1.objs
        (copyCellPropertiesRef s src tgt).2.font = s.objs src.font ∧
    (copyCellPropertiesRef s src tgt).1.objs
        (copyCellPropertiesRef s src tgt).2.border = s.objs src.border ∧
    (copyCellPropertiesRef s src tgt).1.objs
        (copyCellPropertiesRef s src tgt).2.fill = s.objs src.fill ∧
    (copyCellPropertiesRef s src tgt).1.objs
        (copyCellPropertiesRef s src tgt).2.protection = s.objs src.protection ∧
    (copyCellPropertiesRef s src tgt).1.objs
        (copyCellPropertiesRef s src tgt).2.alignment = s.objs src.alignment ∧
    (copyCellPropertiesRef s src tgt).2.number_format = src.number_format ∧
    (∀ r v, r < s.nextId →
      (writeObj (copyCellPropertiesRef s src tgt).1 r v).objs
          (copyCellPropertiesRef s src tgt).2.font =
        (copyCellPropertiesRef s src tgt).1.objs
          (copyCellPropertiesRef s src tgt).2.font ∧
      (writeObj (copyCellPropertiesRef s src tgt).1 r v).objs
          (copyCellPropertiesRef s src tgt).2.border =
        (copyCellPropertiesRef s src tgt).1.objs
          (copyCellPropertiesRef s src tgt).2.border ∧
      (writeObj (copyCellPropertiesRef s src tgt).1 r v).objs
          (copyCellPropertiesRef s src tgt).2.fill =
        (copyCellPropertiesRef s src tgt).1.objs
          (copyCellPropertiesRef s src tgt).2.fill ∧
      (writeObj (copyCellPropertiesRef s src tgt).1 r v).objs
          (copyCellPropertiesRef s src tgt).2.protection =
        (copyCellPropertiesRef s src tgt).1.objs
          (copyCellPropertiesRef s src tgt).2.protection ∧
      (writeObj (copyCellPropertiesRef s src tgt).1 r v).objs
          (copyCellPropertiesRef s src tgt).2.alignment =
        (copyCellPropertiesRef s src tgt).1.objs
          (copyCellPropertiesRef s src tgt).2.alignment) := by
  obtain ⟨hw1, hw2, hw3, hw4, hw5, hw6, hw7⟩ := hwf
  cases hhl : src.hyperlink with
  | none =>
      cases hcm : src.comment with
      | none =>
          rw [copyRef_eq_tnn s src tgt hst hhl hcm]
          dsimp only
          have hmem : ∀ x ∈ [src.font, src.border, src.fill, src.protection,
              src.alignment], x < s.nextId := by
            intro x hx
            simp only [List.mem_cons, List.not_mem_nil, or_false] at hx
            rcases hx with rfl | rfl | rfl | rfl | rfl
            exacts [hw1, hw2, hw3, hw4, hw5]
          obtain ⟨g0, g1, g2, g3, g4⟩ :=
            allocSeq_style_facts s src.font src.border src.fill src.protection
              src.alignment [] hmem
          refine ⟨g0, g1, g2, g3, g4, rfl, ?_⟩
          intro r v hrv
          exact ⟨writeObj_objs_ne _ _ _ _ (by omega),
            writeObj_objs_ne _ _ _ _ (by omega),
            writeObj_objs_ne _ _ _ _ (by omega),
            writeObj_objs_ne _ _ _ _ (by omega),
            writeObj_objs_ne _ _ _ _ (by omega)⟩
      | some cr =>
          have hcr : cr < s.nextId := hw7 cr hcm
          rw [copyRef_eq_tnt s src tgt cr hst hhl hcm]
          dsimp only
          have hmem : ∀ x ∈ [src.font, src.border, src.fill, src.protection,
              src.alignment, cr], x < s.nextId := by
            intro x hx
            simp only [List.mem_cons, List.not_mem_nil, or_false] at hx
            rcases hx with rfl | rfl | rfl | rfl | rfl | rfl
            exacts [hw1, hw2, hw3, hw4, hw5, hcr]
          obtain ⟨g0, g1, g2, g3, g4⟩ :=
            allocSeq_style_facts s src.font src.border src.fill src.protection
              src.alignment [cr] hmem
          refine ⟨g0, g1, g2, g3, g4, rfl, ?_⟩
          intro r v hrv
          exact ⟨writeObj_objs_ne _ _ _ _ (by omega),
            writeObj_objs_ne _ _ _ _ (by omega),
            writeObj_objs_ne _ _ _ _ (by omega),
            writeObj_objs_ne _ _ _ _ (by omega),
            writeObj_objs_ne _ _ _ _ (by omega)⟩
  | some hr =>
      have hhr : hr < s.nextId := hw6 hr hhl
      cases hcm : src.comment with
      | none =>
          rw [copyRef_eq_ttn s src tgt hr hst hhl hcm]
          dsimp only
          have hmem : ∀ x ∈ [src.font, src.border, src.fill, src.protection,
              src.alignment, hr], x < s.nextId := by
            intro x hx
            simp only [List.mem_cons, List.not_mem_nil, or_false] at hx
            rcases hx with rfl | rfl | rfl | rfl | rfl | rfl
            exacts [hw1, hw2, hw3, hw4, hw5, hhr]
          obtain ⟨g0, g1, g2, g3, g4⟩ :=
            allocSeq_style_facts s src.font src.border src.fill src.protection
              src.alignment [hr] hmem
          refine ⟨g0, g1, g2, g3, g4, rfl, ?_⟩
          intro r v hrv
          exact ⟨writeObj_objs_ne _ _ _ _ (by omega),
            writeObj_objs_ne _ _ _ _ (by omega),
            writeObj_objs_ne _ _ _ _ (by omega),
            writeObj_objs_ne _ _ _ _ (by omega),
            writeObj_objs_ne _ _ _ _ (by omega)⟩
      | some cr =>
          have hcr : cr < s.nextId := hw7 cr hcm
          rw [copyRef_eq_ttt s src tgt hr cr hst hhl hcm]
          dsimp only
          have hmem : ∀ x ∈ [src.font, src.border, src.fill, src.protection,
              src.alignment, hr, cr], x < s.nextId := by
            intro x hx
            simp only [List.mem_cons, List.not_mem_nil, or_false] at hx
            rcases hx with rfl | rfl | rfl | rfl | rfl | rfl | rfl
            exacts [hw1, hw2, hw3, hw4, hw5, hhr, hcr]
          obtain ⟨g0, g1, g2, g3, g4⟩ :=
            allocSeq_style_facts s src.font src.border src.fill src.protection
              src.alignment [hr, cr] hmem
          refine ⟨g0, g1, g2, g3, g4, rfl, ?_⟩
          intro r v hrv
          exact ⟨writeObj_objs_ne _ _ _ _ (by omega),
            writeObj_objs_ne _ _ _ _ (by omega),
            writeObj_objs_ne _ _ _ _ (by omega),
            writeObj_objs_ne _ _ _ _ (by omega),
            writeObj_objs_ne _ _ _ _ (by omega)⟩

/-- A present hyperlink is copied into a fresh object with equal contents,
    unaffected by later writes to pre-existing objects. -/
lemma copyRef_hyperlink (s : Store) (src tgt : CellRef) (hwf : src.wf s)
    (hr : Nat) (hhl : src.hyperlink = some hr) :
    ∃ h2, (copyCellPropertiesRef s src tgt).2.hyperlink = some h2 ∧
      (copyCellPropertiesRef s src tgt).1.objs h2 = s.objs hr ∧
      ∀ r v, r < s.nextId →
        (writeObj (copyCellPropertiesRef s src tgt).1 r v).objs h2 =
          (copyCellPropertiesRef s src tgt).1.objs h2 := by
  obtain ⟨hw1, hw2, hw3, hw4, hw5, hw6, hw7⟩ := hwf
  have hhr : hr < s.nextId := hw6 hr hhl
  cases hst : src.has_style with
  | true =>
      cases hcm : src.comment with
      | none =>
          rw [copyRef_eq_ttn s src tgt hr hst hhl hcm]
          dsimp only
          have hmem : ∀ x ∈ [src.font, src.border, src.fill, src.protection,
              src.alignment, hr], x < s.nextId := by
            intro x hx
            simp only [List.mem_cons, List.not_mem_nil, or_false] at hx
            rcases hx with rfl | rfl | rfl | rfl | rfl | rfl
            exacts [hw1, hw2, hw3, hw4, hw5, hhr]
          refine ⟨s.nextId + 5, rfl,
            allocSeq_objs_get _ s hmem 5 (by simp), ?_⟩
          intro r v hrv
          exact writeObj_objs_ne _ _ _ _ (by omega)
      | some cr =>
          have hcr : cr < s.nextId := hw7 cr hcm
          rw [copyRef_eq_ttt s src tgt hr cr hst hhl hcm]
          dsimp only
          have hmem : ∀ x ∈ [src.font, src.border, src.fill, src.protection,
              src.alignment, hr, cr], x < s.nextId := by
            intro x hx
            simp only [List.mem_cons, List.not_mem_nil, or_false] at hx
            rcases hx with rfl | rfl | rfl | rfl | rfl | rfl | rfl
            exacts [hw1, hw2, hw3, hw4, hw5, hhr, hcr]
          refine ⟨s.nextId + 5, rfl,
            allocSeq_objs_get _ s hmem 5 (by simp), ?_⟩
          intro r v hrv
          exact writeObj_objs_ne _ _ _ _ (by omega)
  | false =>
      cases hcm : src.comment with
      | none =>
          rw [copyRef_eq_ftn s src tgt hr hst hhl hcm]
          dsimp only
          have hmem : ∀ x ∈ [hr], x < s.nextId := by
            intro x hx
            simp only [List.mem_cons, List.not_mem_nil, or_false] at hx
            rcases hx with rfl
            exact hhr
          refine ⟨s.nextId, rfl,
            allocSeq_objs_get0 _ s hmem (by simp), ?_⟩
          intro r v hrv
          exact writeObj_objs_ne _ _ _ _ (by omega)
      | some cr =>
          have hcr : cr < s.nextId := hw7 cr hcm
          rw [copyRef_eq_ftt s src tgt hr cr hst hhl hcm]
          dsimp only
          have hmem : ∀ x ∈ [hr, cr], x < s.nextId := by
            intro x hx
            simp only [List.mem_cons, List.not_mem_nil, or_false] at hx
            rcases hx with rfl | rfl
            exacts [hhr, hcr]
          refine ⟨s.nextId, rfl,
            allocSeq_objs_get0 _ s hmem (by simp), ?_⟩
          intro r v hrv
          exact writeObj_objs_ne _ _ _ _ (by omega)

/-- A present comment is copied into a fresh object with equal contents,
    unaffected by later writes to pre-existing objects. -/
lemma copyRef_comment (s : Store) (src tgt : CellRef) (hwf : src.wf s)
    (cr : Nat) (hcm : src.comment = some cr) :
    ∃ c2, (copyCellPropertiesRef s src tgt).2.comment = some c2 ∧
      (copyCellPropertiesRef s src tgt).1.objs c2 = s.objs cr ∧
      ∀ r v, r < s.nextId →
        (writeObj (copyCellPropertiesRef s src tgt).1 r v).objs c2 =
          (copyCellPropertiesRef s src tgt).1.objs c2 := by
  obtain ⟨hw1, hw2, hw3, hw4, hw5, hw6, hw7⟩ := hwf
  have hcr : cr < s.nextId := hw7 cr hcm
  cases hst : src.has_style with
  | true =>
      cases hhl : src.hyperlink with
      | none =>
          rw [copyRef_eq_tnt s src tgt cr hst hhl hcm]
          dsimp only
          have hmem : ∀ x ∈ [src.font, src.border, src.fill, src.protection,
              src.alignment, cr], x < s.nextId := by
            intro x hx
            simp only [List.mem_cons, List.not_mem_nil, or_false] at hx
            rcases hx with rfl | rfl | rfl | rfl | rfl | rfl
            exacts [hw1, hw2, hw3, hw4, hw5, hcr]
          refine ⟨s.nextId + 5, rfl,
            allocSeq_objs_get _ s hmem 5 (by simp), ?_⟩
          intro r v hrv
          exact writeObj_objs_ne _ _ _ _ (by omega)
      | some hr =>
          have hhr : hr < s.nextId := hw6 hr hhl
          rw [copyRef_eq_ttt s src tgt hr cr hst hhl hcm]
          dsimp only
          have hmem : ∀ x ∈ [src.font, src.border, src.fill, src.protection,
              src.alignment, hr, cr], x < s.nextId := by
            intro x hx
            simp only [List.mem_cons, List.not_mem_nil, or_false] at hx
            rcases hx with rfl | rfl | rfl | rfl | rfl | rfl | rfl
            exacts [hw1, hw2, hw3, hw4, hw5, hhr, hcr]
          refine ⟨s.nextId + 6, rfl,
            allocSeq_objs_get _ s hmem 6 (by simp), ?_⟩
          intro r v hrv
          exact writeObj_objs_ne _ _ _ _ (by omega)
  | false =>
      cases hhl : src.hyperlink with
      | none =>
          rw [copyRef_eq_fnt s src tgt cr hst hhl hcm]
          dsimp only
          have hmem : ∀ x ∈ [cr], x < s.nextId := by
            intro x hx
            simp only [List.mem_cons, List.not_mem_nil, or_false] at hx
            rcases hx with rfl
            exact hcr
          refine ⟨s.nextId, rfl,
            allocSeq_objs_get0 _ s hmem (by simp), ?_⟩
          intro r v hrv
          exact writeObj_objs_ne _ _ _ _ (by omega)
      | some hr =>
          have hhr : hr < s.nextId := hw6 hr hhl
          rw [copyRef_eq_ftt s src tgt hr cr hst hhl hcm]
          dsimp only
          have hmem : ∀ x ∈ [hr, cr], x < s.nextId := by
            intro x hx
            simp only [List.mem_cons, List.not_mem_nil, or_false] at hx
            rcases hx with rfl | rfl
            exacts [hhr, hcr]
          refine ⟨s.nextId + 1, rfl,
            allocSeq_objs_get _ s hmem 1 (by simp), ?_⟩
          intro r v hrv
          exact writeObj_objs_ne _ _ _ _ (by omega)

/-- Claim C8: `copy_cell` copies the source cell's value to the target
    unconditionally; if the source has a non-default style it copies font,
    border, fill, number format, protection and alignment as independent
    snapshots; it copies any hyperlink and any comment, each under its own
    presence condition; after the copy the target's copied objects are
    equal in contents to the source's, and mutating any object the source
    cell referenced before the copy (every live reference, by `src.wf s`)
    leaves the target's objects unchanged. -/
theorem c8_copy_cell_deep_copy (s : Store) (src tgt : CellRef)
    (hwf : src.wf s) :
    (copyCellPropertiesRef s src tgt).2.value = src.value ∧
    (src.has_style = true →
      (copyCellPropertiesRef s src tgt).1.objs
          (copyCellPropertiesRef s src tgt).2.font = s.objs src.font ∧
      (copyCellPropertiesRef s src tgt).1.objs
          (copyCellPropertiesRef s src tgt).2.border = s.objs src.border ∧
      (copyCellPropertiesRef s src tgt).1.objs
          (copyCellPropertiesRef s src tgt).2.fill = s.objs src.fill ∧
      (copyCellPropertiesRef s src tgt).1.objs
          (copyCellPropertiesRef s src tgt).2.protection = s.objs src.protection ∧
      (copyCellPropertiesRef s src tgt).1.objs
          (copyCellPropertiesRef s src tgt).2.alignment = s.objs src.alignment ∧
      (copyCellPropertiesRef s src tgt).2.number_format = src.number_format ∧
      (∀ r v, r < s.nextId →
        (writeObj (copyCellPropertiesRef s src tgt).1 r v).objs
            (copyCellPropertiesRef s src tgt).2.font =
          (copyCellPropertiesRef s src tgt).1.objs
            (copyCellPropertiesRef s src tgt).2.font ∧
        (writeObj (copyCellPropertiesRef s src tgt).1 r v).objs
            (copyCellPropertiesRef s src tgt).2.border =
          (copyCellPropertiesRef s src tgt).1.objs
            (copyCellPropertiesRef s src tgt).2.border ∧
        (writeObj (copyCellPropertiesRef s src tgt).1 r v).objs
            (copyCellPropertiesRef s src tgt).2.fill =
          (copyCellPropertiesRef s src tgt).1.objs
            (copyCellPropertiesRef s src tgt).2.fill ∧
        (writeObj (copyCellPropertiesRef s src tgt).1 r v).objs
            (copyCellPropertiesRef s src tgt).2.protection =
          (copyCellPropertiesRef s src tgt).1.objs
            (copyCellPropertiesRef s src tgt).2.protection ∧
        (writeObj (copyCellPropertiesRef s src tgt).1 r v).objs
            (copyCellPropertiesRef s src tgt).2.alignment =
          (copyCellPropertiesRef s src tgt).1.objs
            (copyCellPropertiesRef s src tgt).2.alignment)) ∧
    (∀ hr, src.hyperlink = some hr →
      ∃ h2, (copyCellPropertiesRef s src tgt).2.hyperlink = some h2 ∧
        (copyCellPropertiesRef s src tgt).1.objs h2 = s.objs hr ∧
        ∀ r v, r < s.nextId →
          (writeObj (copyCellPropertiesRef s src tgt).1 r v).objs h2 =
            (copyCellPropertiesRef s src tgt).1.objs h2) ∧
    (∀ cr, src.comment = some cr →
      ∃ c2, (copyCellPropertiesRef s src tgt).2.comment = some c2 ∧
        (copyCellPropertiesRef s src tgt).1.objs c2 = s.objs cr ∧
        ∀ r v, r < s.nextId →
          (writeObj (copyCellPropertiesRef s src tgt).1 r v).objs c2 =
            (copyCellPropertiesRef s src tgt).1.objs c2) :=
  ⟨copyRef_value s src tgt,
   fun hst => copyRef_style s src tgt hwf hst,
   fun hr hhl => copyRef_hyperlink s src tgt hwf hr hhl,
   fun cr hcm => copyRef_comment s src tgt hwf cr hcm⟩

def c8Store : Store :=
  { objs := fun n => (n : Int) * 10, nextId := 7 }

def c8Src : CellRef :=
  { value := some "total", has_style := true, font := 0, border := 1,
    fill := 2, number_format := "0.00", protection := 3, alignment := 4,
    hyperlink := some 5, comment := some 6 }

def c8Tgt : CellRef :=
  { value := none, has_style := false, font := 0, border := 0, fill := 0,
    number_format := "General", protection := 0, alignment := 0,
    hyperlink := none, comment := none }

lemma c8wf : c8Src.wf c8Store := by
  refine ⟨by decide, by decide, by decide, by decide, by decide, ?_, ?_⟩
  · intro r h
    injection h with h2
    show r < 7
    omega
  · intro r h
    injection h with h2
    show r < 7
    omega

theorem c8_copy_cell_deep_copy_witness :
    c8Src.wf c8Store ∧
    ((copyCellPropertiesRef c8Store c8Src c8Tgt).2.value = c8Src.value ∧
    (c8Src.has_style = true →
      (copyCellPropertiesRef c8Store c8Src c8Tgt).1.objs
          (copyCellPropertiesRef c8Store c8Src c8Tgt).2.font
        = c8Store.objs c8Src.font ∧
      (copyCellPropertiesRef c8Store c8Src c8Tgt).1.objs
          (copyCellPropertiesRef c8Store c8Src c8Tgt).2.border
        = c8Store.objs c8Src.border ∧
      (copyCellPropertiesRef c8Store c8Src c8Tgt).1.objs
          (copyCellPropertiesRef c8Store c8Src c8Tgt).2.fill
        = c8Store.objs c8Src.fill ∧
      (copyCellPropertiesRef c8Store c8Src c8Tgt).1.objs
          (copyCellPropertiesRef c8Store c8Src c8Tgt).2.protection
        = c8Store.objs c8Src.protection ∧
      (copyCellPropertiesRef c8Store c8Src c8Tgt).1.objs
          (copyCellPropertiesRef c8Store c8Src c8Tgt).2.alignment
        = c8Store.objs c8Src.alignment ∧
      (copyCellPropertiesRef c8Store c8Src c8Tgt).2.number_format
        = c8Src.number_format ∧
      (∀ r v, r < c8Store.nextId →
        (writeObj (copyCellPropertiesRef c8Store c8Src c8Tgt).1 r v).objs
            (copyCellPropertiesRef c8Store c8Src c8Tgt).2.font =
          (copyCellPropertiesRef c8Store c8Src c8Tgt).1.objs
            (copyCellPropertiesRef c8Store c8Src c8Tgt).2.font ∧
        (writeObj (copyCellPropertiesRef c8Store c8Src c8Tgt).1 r v).objs
            (copyCellPropertiesRef c8Store c8Src c8Tgt).2.border =
          (copyCellPropertiesRef c8Store c8Src c8Tgt).1.objs
            (copyCellPropertiesRef c8Store c8Src c8Tgt).2.border ∧
        (writeObj (copyCellPropertiesRef c8Store c8Src c8Tgt).1 r v).objs
            (copyCellPropertiesRef c8Store c8Src c8Tgt).2.fill =
          (copyCellPropertiesRef c8Store c8Src c8Tgt).1.objs
            (copyCellPropertiesRef c8Store c8Src c8Tgt).2.fill ∧
        (writeObj (copyCellPropertiesRef c8Store c8Src c8Tgt).1 r v).objs
            (copyCellPropertiesRef c8Store c8Src c8Tgt).2.protection =
          (copyCellPropertiesRef c8Store c8Src c8Tgt).1.objs
            (copyCellPropertiesRef c8Store c8Src c8Tgt).2.protection ∧
        (writeObj (copyCellPropertiesRef c8Store c8Src c8Tgt).1 r v).objs
            (copyCellPropertiesRef c8Store c8Src c8Tgt).2.alignment =
          (copyCellPropertiesRef c8Store c8Src c8Tgt).1.objs
            (copyCellPropertiesRef c8Store c8Src c8Tgt).2.alignment)) ∧
    (∀ hr, c8Src.hyperlink = some hr →
      ∃ h2, (copyCellPropertiesRef c8Store c8Src c8Tgt).2.hyperlink = some h2 ∧
        (copyCellPropertiesRef c8Store c8Src c8Tgt).1.objs h2
          = c8Store.objs hr ∧
        ∀ r v, r < c8Store.nextId →
          (writeObj (copyCellPropertiesRef c8Store c8Src c8Tgt).1 r v).objs h2 =
            (copyCellPropertiesRef c8Store c8Src c8Tgt).1.objs h2) ∧
    (∀ cr, c8Src.comment = some cr →
      ∃ c2, (copyCellPropertiesRef c8Store c8Src c8Tgt).2.comment = some c2 ∧
        (copyCellPropertiesRef c8Store c8Src c8Tgt).1.objs c2
          = c8Store.objs cr ∧
        ∀ r v, r < c8Store.nextId →
          (writeObj (copyCellPropertiesRef c8Store c8Src c8Tgt).1 r v).objs c2 =
            (copyCellPropertiesRef c8Store c8Src c8Tgt).1.objs c2)) :=
  ⟨c8wf, c8_copy_cell_deep_copy c8Store c8Src c8Tgt c8wf⟩

/-- Claim C1: for `total_rows > header_rows ≥ 0` and `chunk_size ≥ 1` the
    planner's `num_chunks` is the ceiling of `data_rows / chunk_size` (the
    least `m` with `data_rows ≤ m * chunk_size`), the first window starts at
    `header_rows + 1`, consecutive windows are contiguous, every window is
    non-empty, windows are pairwise disjoint, the last window ends at
    `total_rows`, and a row is covered by some window exactly when it lies
    in `[header_rows + 1, total_rows]`. -/
theorem c1_chunk_planner_windows (total_rows heading_rows chunk_size : Nat)
    (hh : heading_rows < total_rows) (hc : 1 ≤ chunk_size) :
    (total_rows - heading_rows ≤
        num_chunks (total_rows - heading_rows) chunk_size * chunk_size ∧
      ∀ m, total_rows - heading_rows ≤ m * chunk_size →
        num_chunks (total_rows - heading_rows) chunk_size ≤ m) ∧
    source_data_start_row heading_rows chunk_size 0 = heading_rows + 1 ∧
    (∀ i, i + 1 < num_chunks (total_rows - heading_rows) chunk_size →
      source_data_end_row heading_rows chunk_size total_rows i + 1 =
        source_data_start_row heading_rows chunk_size (i + 1)) ∧
    source_data_end_row heading_rows chunk_size total_rows
        (num_chunks (total_rows - heading_rows) chunk_size - 1) = total_rows ∧
    (∀ i, i < num_chunks (total_rows - heading_rows) chunk_size →
      source_data_start_row heading_rows chunk_size i ≤
        source_data_end_row heading_rows chunk_size total_rows i) ∧
    (∀ i j, i < j → j < num_chunks (total_rows - heading_rows) chunk_size →
      source_data_end_row heading_rows chunk_size total_rows i <
        source_data_start_row heading_rows chunk_size j) ∧
    (∀ r, (heading_rows + 1 ≤ r ∧ r ≤ total_rows) ↔
      ∃ i, i < num_chunks (total_rows - heading_rows) chunk_size ∧
        source_data_start_row heading_rows chunk_size i ≤ r ∧
        r ≤ source_data_end_row heading_rows chunk_size total_rows i) := by
  set d := total_rows - heading_rows with hdd
  have hd1 : 1 ≤ d := by omega
  have hkey : num_chunks d chunk_size * chunk_size +
      (d + chunk_size - 1) % chunk_size = d + chunk_size - 1 := by
    unfold num_chunks
    exact Nat.div_add_mod' _ _
  have hmod : (d + chunk_size - 1) % chunk_size < chunk_size :=
    Nat.mod_lt _ (by omega)
  have hpos : 1 ≤ num_chunks d chunk_size := by
    unfold num_chunks
    rw [Nat.le_div_iff_mul_le (by omega)]
    omega
  set nc := num_chunks d chunk_size with hncd
  have hge : d ≤ nc * chunk_size := by omega
  have hle : nc * chunk_size ≤ d + chunk_size - 1 := by omega
  have hpred : (nc - 1) * chunk_size < d := by
    have e2 : nc - 1 + 1 = nc := by omega
    have e1 : (nc - 1) * chunk_size + chunk_size = nc * chunk_size := by
      calc (nc - 1) * chunk_size + chunk_size
          = (nc - 1 + 1) * chunk_size := (Nat.succ_mul _ _).symm
        _ = nc * chunk_size := by rw [e2]
    omega
  refine ⟨⟨hge, ?_⟩, ?_, ?_, ?_, ?_, ?_, ?_⟩
  · intro m hm
    have e3 : (m + 1) * chunk_size = m * chunk_size + chunk_size :=
      Nat.succ_mul _ _
    have h3 : (d + chunk_size - 1) / chunk_size < m + 1 := by
      rw [Nat.div_lt_iff_lt_mul (by omega)]
      omega
    rw [hncd]
    unfold num_chunks
    omega
  · unfold source_data_start_row
    omega
  · intro i hi
    unfold source_data_end_row source_data_start_row
    have hm1 : (i + 1) * chunk_size ≤ (nc - 1) * chunk_size :=
      Nat.mul_le_mul_right _ (by omega)
    rw [min_eq_left (by omega)]
  · unfold source_data_end_row
    have e2 : nc - 1 + 1 = nc := by omega
    rw [e2]
    exact min_eq_right (by omega)
  · intro i hi
    unfold source_data_start_row source_data_end_row
    have hm2 : i * chunk_size ≤ (nc - 1) * chunk_size :=
      Nat.mul_le_mul_right _ (by omega)
    have e3 : (i + 1) * chunk_size = i * chunk_size + chunk_size :=
      Nat.succ_mul _ _
    exact le_min (by omega) (by omega)
  · intro i j hij hj
    unfold source_data_start_row source_data_end_row
    have hm3 : (i + 1) * chunk_size ≤ j * chunk_size :=
      Nat.mul_le_mul_right _ (by omega)
    have hminl := min_le_left (heading_rows + (i + 1) * chunk_size) total_rows
    omega
  · intro r
    constructor
    · rintro ⟨hr1, hr2⟩
      have key3 : (r - heading_rows - 1) / chunk_size * chunk_size +
          (r - heading_rows - 1) % chunk_size = r - heading_rows - 1 :=
        Nat.div_add_mod' _ _
      have hmod3 : (r - heading_rows - 1) % chunk_size < chunk_size :=
        Nat.mod_lt _ (by omega)
      refine ⟨(r - heading_rows - 1) / chunk_size, ?_, ?_, ?_⟩
      · by_contra hq
        push_neg at hq
        have hm4 : nc * chunk_size ≤
            (r - heading_rows - 1) / chunk_size * chunk_size :=
          Nat.mul_le_mul_right _ hq
        omega
      · unfold source_data_start_row
        omega
      · unfold source_data_end_row
        have e4 : ((r - heading_rows - 1) / chunk_size + 1) * chunk_size =
            (r - heading_rows - 1) / chunk_size * chunk_size + chunk_size :=
          Nat.succ_mul _ _
        exact le_min (by omega) hr2
    · rintro ⟨i, hi, hs, he⟩
      unfold source_data_start_row at hs
      unfold source_data_end_row at he
      have hminr := min_le_right (heading_rows + (i + 1) * chunk_size) total_rows
      exact ⟨by omega, by omega⟩

theorem c1_chunk_planner_windows_witness :
    1 < 23 ∧ 1 ≤ 10 ∧
    ((23 - 1 ≤ num_chunks (23 - 1) 10 * 10 ∧
      ∀ m, 23 - 1 ≤ m * 10 → num_chunks (23 - 1) 10 ≤ m) ∧
    source_data_start_row 1 10 0 = 1 + 1 ∧
    (∀ i, i + 1 < num_chunks (23 - 1) 10 →
      source_data_end_row 1 10 23 i + 1 = source_data_start_row 1 10 (i + 1)) ∧
    source_data_end_row 1 10 23 (num_chunks (23 - 1) 10 - 1) = 23 ∧
    (∀ i, i < num_chunks (23 - 1) 10 →
      source_data_start_row 1 10 i ≤ source_data_end_row 1 10 23 i) ∧
    (∀ i j, i < j → j < num_chunks (23 - 1) 10 →
      source_data_end_row 1 10 23 i < source_data_start_row 1 10 j) ∧
    (∀ r, (1 + 1 ≤ r ∧ r ≤ 23) ↔
      ∃ i, i < num_chunks (23 - 1) 10 ∧
        source_data_start_row 1 10 i ≤ r ∧ r ≤ source_data_end_row 1 10 23 i)) :=
  ⟨by decide, by decide, c1_chunk_planner_windows 23 1 10 (by decide) (by decide)⟩

lemma chunkLoop_source (p : Params) (ws : Sheet)
    (total_rows max_col heading_rows nc : Nat) :
    ∀ fuel i st, (chunkLoop p ws total_rows max_col heading_rows nc fuel i st).source
      = st.source := by
  intro fuel
  induction fuel with
  | zero =>
      intro i st
      rfl
  | succ n ih =>
      intro i st
      simp only [chunkLoop]
      split
      · rfl
      · split
        · rfl
        · rw [ih]

/-- Claim C9: throughout one run the source sheet is never mutated - the
    worker state's `source` component (the whole sheet: cells, merged
    ranges, column widths, row heights, auto-filter) after the run is
    exactly the sheet the load produced; every write of the chunk loop goes
    to the freshly created chunk workbooks or the event/file lists. -/
theorem c9_source_never_mutated (p : Params) (ws : Sheet)
    (hload : p.load = Except.ok ws) :
    (split_excel_file_with_formatting p).source = some ws := by
  have h1 : split_excel_file_with_formatting p = runLoaded p ws := by
    unfold split_excel_file_with_formatting
    rw [hload]
  rw [h1]
  simp only [runLoaded]
  split
  · rfl
  · split
    · rfl
    · rw [chunkLoop_source]

def c9Sheet : Sheet :=
  { emptySheet with
    max_row := 23, max_col := 3,
    merged := [{ min_row := 2, max_row := 3, min_col := 1, max_col := 2 }],
    auto_filter := some "A1:C23" }

def c9Params : Params :=
  { input_filename_base := "report", output_directory := "out",
    chunk_size := 10, heading_rows := 1, preserve_formulas := true,
    load := Except.ok c9Sheet, save := fun _ => none,
    cancel := fun _ => false }

theorem c9_source_never_mutated_witness :
    c9Params.load = Except.ok c9Sheet ∧
    (split_excel_file_with_formatting c9Params).source = some c9Sheet :=
  ⟨rfl, c9_source_never_mutated c9Params c9Sheet rfl⟩

/-- The output path of chunk `i` (lines 259-260). -/
def chunk_output_path (p : Params) (heading_rows total_rows i : Nat) : String :=
  output_path p.output_directory p.input_filename_base
    (source_data_start_row heading_rows p.chunk_size i)
    (source_data_end_row heading_rows p.chunk_size total_rows i)

/-- The progress event emitted before chunk `i` is built (lines 231-232). -/
def chunk_progress_event (p : Params) (heading_rows total_rows nc i : Nat) : Event :=
  Event.progress (i + 1) (chunk_status_text i nc
    (source_data_start_row heading_rows p.chunk_size i)
    (source_data_end_row heading_rows p.chunk_size total_rows i))

lemma chunkLoop_cancel_step (p : Params) (ws : Sheet)
    (total_rows max_col heading_rows nc n i : Nat) (st : EngineState)
    (hc : p.cancel i = true) :
    chunkLoop p ws total_rows max_col heading_rows nc (n + 1) i st =
      putResult st
        { status := "cancelled", message := "Operation cancelled.",
          files_created := st.files_created } := by
  simp only [chunkLoop, hc, if_true]

lemma chunkLoop_ok_step (p : Params) (ws : Sheet)
    (total_rows max_col heading_rows nc n i : Nat) (st : EngineState)
    (hc : p.cancel i = false)
    (hs : p.save (chunk_output_path p heading_rows total_rows i) = none) :
    chunkLoop p ws total_rows max_col heading_rows nc (n + 1) i st =
      chunkLoop p ws total_rows max_col heading_rows nc n (i + 1)
        { st with
          events := st.events ++
            [chunk_progress_event p heading_rows total_rows nc i],
          saved := st.saved ++ [(chunk_output_path p heading_rows total_rows i,
            buildChunk ws heading_rows max_col
              (source_data_start_row heading_rows p.chunk_size i)
              (source_data_end_row heading_rows p.chunk_size total_rows i))],
          files_created := st.files_created + 1 } := by
  simp only [chunk_output_path] at hs
  simp only [chunkLoop, hc, Bool.false_eq_true, if_false, hs]
  rfl

lemma chunkLoop_savefail_step (p : Params) (ws : Sheet)
    (total_rows max_col heading_rows nc n i : Nat) (st : EngineState)
    (e : String) (hc : p.cancel i = false)
    (hs : p.save (chunk_output_path p heading_rows total_rows i) = some e) :
    chunkLoop p ws total_rows max_col heading_rows nc (n + 1) i st =
      putResult
        { st with
          events := st.events ++
            [chunk_progress_event p heading_rows total_rows nc i] }
        { status := "error",
          message := "Error saving " ++
            chunk_output_path p heading_rows total_rows i ++ ": " ++ e,
          files_created := st.files_created } := by
  simp only [chunk_output_path] at hs
  simp only [chunkLoop, hc, Bool.false_eq_true, if_false, hs]
  rfl

lemma chunkLoop_cancelled (p : Params) (ws : Sheet)
    (total_rows max_col heading_rows nc : Nat) :
    ∀ m fuel i st, m < fuel →
      (∀ j, j < m → p.cancel (i + j) = false) →
      p.cancel (i + m) = true →
      (∀ pth, p.save pth = none) →
      (chunkLoop p ws total_rows max_col heading_rows nc fuel i st).files_created
          = st.files_created + m ∧
      (chunkLoop p ws total_rows max_col heading_rows nc fuel i st).saved.length
          = st.saved.length + m ∧
      ∃ evs,
        (chunkLoop p ws total_rows max_col heading_rows nc fuel i st).events
            = st.events ++ evs ++ [Event.result
              { status := "cancelled", message := "Operation cancelled.",
                files_created := st.files_created + m }] ∧
        evs.length = m ∧ ∀ x ∈ evs, ∃ a b, x = Event.progress a b := by
  intro m
  induction m with
  | zero =>
      intro fuel i st hf h1 h2 h3
      cases fuel with
      | zero => omega
      | succ n =>
          rw [Nat.add_zero] at h2
          rw [chunkLoop_cancel_step p ws total_rows max_col heading_rows nc n i st h2]
          refine ⟨rfl, rfl, [], ?_, rfl, by simp⟩
          simp [putResult]
  | succ k ih =>
      intro fuel i st hf h1 h2 h3
      cases fuel with
      | zero => omega
      | succ n =>
          have hc0 : p.cancel i = false := by
            have := h1 0 (by omega)
            rwa [Nat.add_zero] at this
          rw [chunkLoop_ok_step p ws total_rows max_col heading_rows nc n i st hc0 (h3 _)]
          have hcan : ∀ j, j < k → p.cancel (i + 1 + j) = false := by
            intro j hj
            have := h1 (j + 1) (by omega)
            rwa [show i + (j + 1) = i + 1 + j by omega] at this
          have hset : p.cancel (i + 1 + k) = true := by
            rwa [show i + (k + 1) = i + 1 + k by omega] at h2
          obtain ⟨ga, gb, evs, ge, gl, gp⟩ :=
            ih n (i + 1)
              { st with
                events := st.events ++
                  [chunk_progress_event p heading_rows total_rows nc i],
                saved := st.saved ++ [(chunk_output_path p heading_rows total_rows i,
                  buildChunk ws heading_rows max_col
                    (source_data_start_row heading_rows p.chunk_size i)
                    (source_data_end_row heading_rows p.chunk_size total_rows i))],
                files_created := st.files_created + 1 }
              (by omega) hcan hset h3
          refine ⟨?_, ?_,
            chunk_progress_event p heading_rows total_rows nc i :: evs, ?_, ?_, ?_⟩
          · rw [ga]
            dsimp only
            omega
          · rw [gb]
            dsimp only
            rw [List.length_append]
            dsimp only [List.length]
            omega
          · rw [ge]
            dsimp only
            have harith : st.files_created + 1 + k = st.files_created + (k + 1) := by
              omega
            rw [harith]
            simp [List.append_assoc]
          · dsimp only [List.length]
            omega
          · intro x hx
            rcases List.mem_cons.mp hx with h | h
            · exact ⟨i + 1, _, h⟩
            · exact gp x h

/-- Claim C5: with `num_chunks` planned chunks, if the cancellation flag is
    first seen set at the boundary of chunk `k` (polled values are `false`
    at the boundaries of chunks `1..k-1` and `true` at chunk `k`'s) and
    every save succeeds, the engine saves exactly `k - 1` output files and
    its event stream is progress events followed by exactly one terminal
    result with status `cancelled` reporting `files_created = k - 1`.  In
    the embedding the flag is a function of the chunk index alone, polled
    once per chunk at its boundary, mirroring the single `is_set` check at
    the top of the loop. -/
theorem c5_cancellation_before_chunk_k (p : Params) (ws : Sheet) (k : Nat)
    (hload : p.load = Except.ok ws)
    (hrow : 0 < ws.max_row) (hcol : 0 < ws.max_col)
    (hdata : min p.heading_rows ws.max_row < ws.max_row)
    (hk1 : 1 ≤ k)
    (hk2 : k ≤ num_chunks (ws.max_row - min p.heading_rows ws.max_row) p.chunk_size)
    (hbefore : ∀ j, j < k - 1 → p.cancel j = false)
    (hat : p.cancel (k - 1) = true)
    (hsave : ∀ pth, p.save pth = none) :
    (split_excel_file_with_formatting p).saved.length = k - 1 ∧
    ∃ evs, (split_excel_file_with_formatting p).events =
        evs ++ [Event.result
          { status := "cancelled", message := "Operation cancelled.",
            files_created := k - 1 }] ∧
      evs.length = k - 1 ∧ ∀ x ∈ evs, ∃ a b, x = Event.progress a b := by
  have h1 : split_excel_file_with_formatting p = runLoaded p ws := by
    unfold split_excel_file_with_formatting
    rw [hload]
  rw [h1]
  simp only [runLoaded]
  rw [if_neg (by omega)]
  rw [if_neg (by omega)]
  have hcan0 : ∀ j, j < k - 1 → p.cancel (0 + j) = false := by
    intro j hj
    rw [Nat.zero_add]
    exact hbefore j hj
  have hat0 : p.cancel (0 + (k - 1)) = true := by
    rwa [Nat.zero_add]
  obtain ⟨ga, gb, evs, ge, gl, gp⟩ :=
    chunkLoop_cancelled p ws ws.max_row ws.max_col
      (min p.heading_rows ws.max_row)
      (num_chunks (ws.max_row - min p.heading_rows ws.max_row) p.chunk_size)
      (k - 1)
      (num_chunks (ws.max_row - min p.heading_rows ws.max_row) p.chunk_size)
      0
      { source := some ws, events := [], saved := [], files_created := 0 }
      (by omega) hcan0 hat0 hsave
  refine ⟨?_, evs, ?_, gl, gp⟩
  · rw [gb]
    simp
  · rw [ge]
    simp

def c5Sheet : Sheet :=
  { emptySheet with max_row := 23, max_col := 1 }

def c5Params : Params :=
  { input_filename_base := "report", output_directory := "out",
    chunk_size := 10, heading_rows := 1, preserve_formulas := false,
    load := Except.ok c5Sheet, save := fun _ => none,
    cancel := fun i => decide (1 ≤ i) }

theorem c5_cancellation_before_chunk_k_witness :
    c5Params.load = Except.ok c5Sheet ∧ 0 < c5Sheet.max_row ∧
    0 < c5Sheet.max_col ∧
    min c5Params.heading_rows c5Sheet.max_row < c5Sheet.max_row ∧
    1 ≤ 2 ∧
    2 ≤ num_chunks (c5Sheet.max_row - min c5Params.heading_rows c5Sheet.max_row)
          c5Params.chunk_size ∧
    (∀ j, j < 2 - 1 → c5Params.cancel j = false) ∧
    c5Params.cancel (2 - 1) = true ∧
    (∀ pth, c5Params.save pth = none) ∧
    ((split_excel_file_with_formatting c5Params).saved.length = 2 - 1 ∧
    ∃ evs, (split_excel_file_with_formatting c5Params).events =
        evs ++ [Event.result
          { status := "cancelled", message := "Operation cancelled.",
            files_created := 2 - 1 }] ∧
      evs.length = 2 - 1 ∧ ∀ x ∈ evs, ∃ a b, x = Event.progress a b) :=
  ⟨rfl, by decide, by decide, by decide, by decide, by decide, by decide,
   by decide, fun _ => rfl,
   c5_cancellation_before_chunk_k c5Params c5Sheet 2 rfl (by decide) (by decide)
     (by decide) (by decide) (by decide) (by decide) (by decide) (fun _ => rfl)⟩

lemma map_range_shift {α : Type} (f : Nat → α) (k i : Nat) :
    (List.range (k + 1)).map (fun j => f (i + j)) =
      f i :: (List.range k).map (fun j => f (i + 1 + j)) := by
  rw [List.range_succ_eq_map, List.map_cons, List.map_map]
  have h2 : ((fun j => f (i + j)) ∘ Nat.succ) = fun j => f (i + 1 + j) := by
    funext j
    simp only [Function.comp]
    congr 1
    omega
  rw [h2, Nat.add_zero]

lemma chunkLoop_save_fails (p : Params) (ws : Sheet)
    (total_rows max_col heading_rows nc : Nat) (e : String) :
    ∀ m fuel i st, m < fuel →
      (∀ j, j ≤ m → p.cancel (i + j) = false) →
      (∀ j, j < m →
        p.save (chunk_output_path p heading_rows total_rows (i + j)) = none) →
      p.save (chunk_output_path p heading_rows total_rows (i + m)) = some e →
      (chunkLoop p ws total_rows max_col heading_rows nc fuel i st).files_created
          = st.files_created + m ∧
      (∃ fs,
        (chunkLoop p ws total_rows max_col heading_rows nc fuel i st).saved
            = st.saved ++ fs ∧
        fs.length = m ∧
        fs.map Prod.fst = (List.range m).map
          (fun j => chunk_output_path p heading_rows total_rows (i + j))) ∧
      ∃ evs,
        (chunkLoop p ws total_rows max_col heading_rows nc fuel i st).events
            = st.events ++ evs ++ [Event.result
              { status := "error",
                message := "Error saving " ++
                  chunk_output_path p heading_rows total_rows (i + m) ++ ": " ++ e,
                files_created := st.files_created + m }] ∧
        evs.length = m + 1 ∧ ∀ x ∈ evs, ∃ a b, x = Event.progress a b := by
  intro m
  induction m with
  | zero =>
      intro fuel i st hf hcan hsaves hfail
      cases fuel with
      | zero => omega
      | succ n =>
          have hc0 : p.cancel i = false := by
            have := hcan 0 (by omega)
            rwa [Nat.add_zero] at this
          rw [Nat.add_zero] at hfail
          rw [chunkLoop_savefail_step p ws total_rows max_col heading_rows nc n i st
            e hc0 hfail]
          simp only [Nat.add_zero]
          refine ⟨rfl, ⟨[], by simp [putResult], rfl, by simp⟩,
            [chunk_progress_event p heading_rows total_rows nc i], ?_, rfl, ?_⟩
          · simp [putResult]
          · intro x hx
            rcases List.mem_cons.mp hx with h | h
            · exact ⟨i + 1, _, h⟩
            · simp at h
  | succ k ih =>
      intro fuel i st hf hcan hsaves hfail
      cases fuel with
      | zero => omega
      | succ n =>
          have hc0 : p.cancel i = false := by
            have := hcan 0 (by omega)
            rwa [Nat.add_zero] at this
          have hs0 : p.save (chunk_output_path p heading_rows total_rows i) = none := by
            have := hsaves 0 (by omega)
            rwa [Nat.add_zero] at this
          rw [chunkLoop_ok_step p ws total_rows max_col heading_rows nc n i st hc0 hs0]
          have hcan2 : ∀ j, j ≤ k → p.cancel (i + 1 + j) = false := by
            intro j hj
            have := hcan (j + 1) (by omega)
            rwa [show i + (j + 1) = i + 1 + j by omega] at this
          have hsaves2 : ∀ j, j < k →
              p.save (chunk_output_path p heading_rows total_rows (i + 1 + j)) = none := by
            intro j hj
            have := hsaves (j + 1) (by omega)
            rwa [show i + (j + 1) = i + 1 + j by omega] at this
          have hfail2 : p.save (chunk_output_path p heading_rows total_rows (i + 1 + k))
              = some e := by
            rwa [show i + (k + 1) = i + 1 + k by omega] at hfail
          obtain ⟨ga, ⟨fs, gs1, gs2, gs3⟩, evs, ge, gl, gp⟩ :=
            ih n (i + 1)
              { st with
                events := st.events ++
                  [chunk_progress_event p heading_rows total_rows nc i],
                saved := st.saved ++ [(chunk_output_path p heading_rows total_rows i,
                  buildChunk ws heading_rows max_col
                    (source_data_start_row heading_rows p.chunk_size i)
                    (source_data_end_row heading_rows p.chunk_size total_rows i))],
                files_created := st.files_created + 1 }
              (by omega) hcan2 hsaves2 hfail2
          have hidx : i + (k + 1) = i + 1 + k := by omega
          rw [hidx]
          refine ⟨?_, ?_, ?_⟩
          · rw [ga]
            dsimp only
            omega
          · refine ⟨(chunk_output_path p heading_rows total_rows i,
              buildChunk ws heading_rows max_col
                (source_data_start_row heading_rows p.chunk_size i)
                (source_data_end_row heading_rows p.chunk_size total_rows i)) :: fs,
              ?_, ?_, ?_⟩
            · rw [gs1]
              dsimp only
              simp [List.append_assoc]
            · dsimp only [List.length]
              omega
            · rw [List.map_cons, gs3, map_range_shift
                (fun j => chunk_output_path p heading_rows total_rows j) k i]
          · refine ⟨chunk_progress_event p heading_rows total_rows nc i :: evs, ?_, ?_, ?_⟩
            · rw [ge]
              dsimp only
              have harith : st.files_created + 1 + k = st.files_created + (k + 1) := by
                omega
              rw [harith]
              simp [List.append_assoc]
            · dsimp only [List.length]
              omega
            · intro x hx
              rcases List.mem_cons.mp hx with h | h
              · exact ⟨i + 1, _, h⟩
              · exact gp x h

/-- Claim C6: if saving chunk `m`'s output file (named
    `{input_basename}_rows_{start}-{end}.xlsx` inside the output directory)
    fails while all earlier saves succeed and cancellation never fires, the
    run ends with exactly one terminal error result whose `files_created`
    equals the `m` files saved before the failure, whose message contains
    the failing path; the files saved before the failure are kept (with
    their chunk paths, in order) and no chunk beyond `m` is attempted (one
    progress event per attempted chunk, `m + 1` in total). -/
theorem c6_save_failure_terminal (p : Params) (ws : Sheet) (m : Nat) (e : String)
    (hload : p.load = Except.ok ws)
    (hrow : 0 < ws.max_row) (hcol : 0 < ws.max_col)
    (hdata : min p.heading_rows ws.max_row < ws.max_row)
    (hm : m < num_chunks (ws.max_row - min p.heading_rows ws.max_row) p.chunk_size)
    (hcan : ∀ j, p.cancel j = false)
    (hsaves : ∀ j, j < m →
      p.save (chunk_output_path p (min p.heading_rows ws.max_row) ws.max_row j) = none)
    (hfail : p.save (chunk_output_path p (min p.heading_rows ws.max_row) ws.max_row m)
      = some e) :
    (split_excel_file_with_formatting p).saved.length = m ∧
    (split_excel_file_with_formatting p).saved.map Prod.fst = (List.range m).map
      (fun j => chunk_output_path p (min p.heading_rows ws.max_row) ws.max_row j) ∧
    (∃ evs, (split_excel_file_with_formatting p).events = evs ++ [Event.result
        { status := "error",
          message := "Error saving " ++
            chunk_output_path p (min p.heading_rows ws.max_row) ws.max_row m ++
            ": " ++ e,
          files_created := m }] ∧
      evs.length = m + 1 ∧ ∀ x ∈ evs, ∃ a b, x = Event.progress a b) ∧
    (∃ pre post, "Error saving " ++
        chunk_output_path p (min p.heading_rows ws.max_row) ws.max_row m ++
        ": " ++ e =
      pre ++ chunk_output_path p (min p.heading_rows ws.max_row) ws.max_row m ++ post) ∧
    chunk_output_path p (min p.heading_rows ws.max_row) ws.max_row m =
      p.output_directory ++ "/" ++ p.input_filename_base ++ "_rows_" ++
        toString (source_data_start_row (min p.heading_rows ws.max_row)
          p.chunk_size m) ++ "-" ++
        toString (source_data_end_row (min p.heading_rows ws.max_row)
          p.chunk_size ws.max_row m) ++ ".xlsx" := by
  have h1 : split_excel_file_with_formatting p = runLoaded p ws := by
    unfold split_excel_file_with_formatting
    rw [hload]
  rw [h1]
  simp only [runLoaded]
  rw [if_neg (by omega)]
  rw [if_neg (by omega)]
  have hcan0 : ∀ j, j ≤ m → p.cancel (0 + j) = false := by
    intro j hj
    rw [Nat.zero_add]
    exact hcan j
  have hsaves0 : ∀ j, j < m →
      p.save (chunk_output_path p (min p.heading_rows ws.max_row) ws.max_row (0 + j))
        = none := by
    intro j hj
    rw [Nat.zero_add]
    exact hsaves j hj
  have hfail0 : p.save
      (chunk_output_path p (min p.heading_rows ws.max_row) ws.max_row (0 + m))
      = some e := by
    rwa [Nat.zero_add]
  obtain ⟨ga, ⟨fs, gs1, gs2, gs3⟩, evs, ge, gl, gp⟩ :=
    chunkLoop_save_fails p ws ws.max_row ws.max_col
      (min p.heading_rows ws.max_row)
      (num_chunks (ws.max_row - min p.heading_rows ws.max_row) p.chunk_size) e
      m
      (num_chunks (ws.max_row - min p.heading_rows ws.max_row) p.chunk_size)
      0
      { source := some ws, events := [], saved := [], files_created := 0 }
      hm hcan0 hsaves0 hfail0
  rw [Nat.zero_add] at ge
  simp only [Nat.zero_add] at gs3
  refine ⟨?_, ?_, ⟨evs, ?_, gl, gp⟩, ?_, ?_⟩
  · rw [gs1]
    simp [gs2]
  · rw [gs1]
    simp [gs3]
  · rw [ge]
    simp
  · refine ⟨"Error saving ", ": " ++ e, ?_⟩
    simp [String.append_assoc]
  · simp [chunk_output_path, output_path, output_file_name, String.append_assoc]

def c6Sheet : Sheet :=
  { emptySheet with max_row := 23, max_col := 1 }

def c6Params : Params :=
  { input_filename_base := "report", output_directory := "out",
    chunk_size := 10, heading_rows := 1, preserve_formulas := false,
    load := Except.ok c6Sheet,
    save := fun s => if s = "out/report_rows_2-11.xlsx" then none
      else some "disk full",
    cancel := fun _ => false }

theorem c6_save_failure_terminal_witness :
    c6Params.load = Except.ok c6Sheet ∧ 0 < c6Sheet.max_row ∧
    0 < c6Sheet.max_col ∧
    min c6Params.heading_rows c6Sheet.max_row < c6Sheet.max_row ∧
    1 < num_chunks (c6Sheet.max_row - min c6Params.heading_rows c6Sheet.max_row)
          c6Params.chunk_size ∧
    (∀ j, c6Params.cancel j = false) ∧
    (∀ j, j < 1 → c6Params.save (chunk_output_path c6Params
      (min c6Params.heading_rows c6Sheet.max_row) c6Sheet.max_row j) = none) ∧
    c6Params.save (chunk_output_path c6Params
      (min c6Params.heading_rows c6Sheet.max_row) c6Sheet.max_row 1)
      = some "disk full" ∧
    ((split_excel_file_with_formatting c6Params).saved.length = 1 ∧
    (split_excel_file_with_formatting c6Params).saved.map Prod.fst =
      (List.range 1).map (fun j => chunk_output_path c6Params
        (min c6Params.heading_rows c6Sheet.max_row) c6Sheet.max_row j) ∧
    (∃ evs, (split_excel_file_with_formatting c6Params).events =
        evs ++ [Event.result
          { status := "error",
            message := "Error saving " ++ chunk_output_path c6Params
              (min c6Params.heading_rows c6Sheet.max_row) c6Sheet.max_row 1 ++
              ": " ++ "disk full",
            files_created := 1 }] ∧
      evs.length = 1 + 1 ∧ ∀ x ∈ evs, ∃ a b, x = Event.progress a b) ∧
    (∃ pre post, "Error saving " ++ chunk_output_path c6Params
        (min c6Params.heading_rows c6Sheet.max_row) c6Sheet.max_row 1 ++
        ": " ++ "disk full" =
      pre ++ chunk_output_path c6Params
        (min c6Params.heading_rows c6Sheet.max_row) c6Sheet.max_row 1 ++ post) ∧
    chunk_output_path c6Params (min c6Params.heading_rows c6Sheet.max_row)
        c6Sheet.max_row 1 =
      c6Params.output_directory ++ "/" ++ c6Params.input_filename_base ++
        "_rows_" ++
        toString (source_data_start_row (min c6Params.heading_rows c6Sheet.max_row)
          c6Params.chunk_size 1) ++ "-" ++
        toString (source_data_end_row (min c6Params.heading_rows c6Sheet.max_row)
          c6Params.chunk_size c6Sheet.max_row 1) ++ ".xlsx") :=
  ⟨rfl, by decide, by decide, by decide, by decide, fun _ => rfl,
   by decide, by decide,
   c6_save_failure_terminal c6Params c6Sheet 1 "disk full" rfl (by decide)
     (by decide) (by decide) (by decide) (fun _ => rfl) (by decide) (by decide)⟩
